import Mathlib

/-!
Shallow embedding of the storage core of the build-counter service.

The service records build lifecycle events through one of two backends:
a relational (PostgreSQL) backend storing one row per build event
(database.go), and a namespace (Kubernetes ConfigMap) backend storing at
most one JSON-serialized build record per project name (configmap.go).

Modelling choices:
- Timestamps are integer seconds (the granularity at which the code's
  derived duration, int64 of finished.Sub(started).Seconds(), is exact).
- The relational table is a list of rows plus the serial sequence's next
  value; SQL statements are translated clause by clause.
- The ConfigMap is an optional association list from project name to the
  stored string value; None models a document that does not exist yet.
  json.Marshal / json.Unmarshal are modelled by a tagged stored value:
  an encoded BuildInfo (Marshal output, which Unmarshal recovers), or
  raw bytes that do not decode as a BuildInfo (Unmarshal fails).
- The medium itself is reachable: connection failures and rejected writes
  of a healthy request are out of scope; the only fetch failure modelled
  is fetching a document that does not exist.
- Wall-clock time is passed explicitly as the parameter now.
- Go map iteration order and SQL output order are unspecified by the
  spec; the embedding fixes first-appearance order.
-/

namespace BuildCounter

/-- Build record as produced by the read operations (struct Build in
main.go): id, name, build_id, started, optional finished, and the
derived optional duration_seconds. -/
structure Build where
  id : Int
  name : String
  buildID : String
  started : Int
  finished : Option Int
  duration : Option Int
deriving DecidableEq

/-- Per-project summary returned by ListProjects (struct ProjectSummary
in main.go): name, latest build, and build count. -/
structure ProjectSummary where
  name : String
  latestBuild : Build
  buildCount : Nat
deriving DecidableEq

/-- Error kinds surfaced by the storage operations, following the
spec's classification of the error strings in the code: getFailed is a
failed fetch of the backing document, notFound a finish/read with no
record, mismatch a build_id that differs from the stored one,
decodeFailed a stored value that does not unmarshal. -/
inductive StorageErr
  | getFailed
  | notFound
  | mismatch
  | decodeFailed
deriving DecidableEq

namespace DatabaseStorage

/-- One row of the builds table: id (serial), name, build_id, started,
nullable finished. -/
structure Row where
  id : Int
  name : String
  buildID : String
  started : Int
  finished : Option Int
deriving DecidableEq

/-- The relational backend's state: the rows of the builds table and
the next value of the id sequence. -/
structure DBState where
  rows : List Row
  nextId : Int
deriving DecidableEq

/-- StartBuild (database.go): INSERT INTO builds (name, build_id,
started) VALUES ($1, $2, now()) RETURNING id. -/
def StartBuild (s : DBState) (name buildID : String) (now : Int) :
    DBState × Int :=
  ({ rows := s.rows ++
       [{ id := s.nextId, name := name, buildID := buildID,
          started := now, finished := none }],
     nextId := s.nextId + 1 },
   s.nextId)

/-- The effect of FinishBuild's UPDATE on a single row: SET finished =
NOW() when the row satisfies WHERE name = $1 AND build_id = $2. -/
def finishRow (name buildID : String) (now : Int) (r : Row) : Row :=
  if r.name = name ∧ r.buildID = buildID then
    { r with finished := some now }
  else r

/-- FinishBuild (database.go): UPDATE builds SET finished = NOW() WHERE
name = $1 AND build_id = $2; the row count is not inspected, so the
call succeeds whether or not any row matched. -/
def FinishBuild (s : DBState) (name buildID : String) (now : Int) :
    DBState × Option StorageErr :=
  ({ s with rows := s.rows.map (finishRow name buildID now) }, none)

/-- Scan of one row into a Build (database.go row scan loops): when
finished is non-null, duration_seconds is derived as finished - started
at read time. -/
def buildOfRow (r : Row) : Build :=
  { id := r.id, name := r.name, buildID := r.buildID,
    started := r.started, finished := r.finished,
    duration :=
      match r.finished with
      | some f => some (f - r.started)
      | none => none }

/-- GetProjectBuilds (database.go): SELECT ... FROM builds WHERE name =
$1 ORDER BY started DESC, each row scanned into a Build. -/
def GetProjectBuilds (s : DBState) (name : String) : List Build :=
  (((s.rows.filter (fun r => r.name = name)).insertionSort
      (fun a b => b.started ≤ a.started)).map buildOfRow)

/-- The row DISTINCT ON (name) ... ORDER BY name, started DESC selects
for a given name: a row of that name with maximal started (ties are
medium-defined; the fold keeps the earliest-listed one). -/
def latestRowFor (name : String) (rows : List Row) : Option Row :=
  rows.foldl
    (fun acc r =>
      if r.name = name then
        match acc with
        | none => some r
        | some m => if m.started < r.started then some r else some m
      else acc)
    none

/-- ListProjects (database.go): SELECT DISTINCT ON (name) name, id,
build_id, started, finished, (SELECT COUNT(*) FROM builds b2 WHERE
b2.name = builds.name) FROM builds ORDER BY name, started DESC; one
summary per distinct name, whose latest build is the row with maximal
started, with the correlated count of rows sharing the name. -/
def ListProjects (s : DBState) : List ProjectSummary :=
  ((s.rows.map (·.name)).dedup).filterMap
    (fun n =>
      (latestRowFor n s.rows).map
        (fun r =>
          { name := n, latestBuild := buildOfRow r,
            buildCount :=
              (s.rows.filter (fun r2 => r2.name = n)).length }))

end DatabaseStorage

namespace ConfigMapStorage

/-- BuildInfo (configmap.go): the record JSON-stored per project name
in the ConfigMap. -/
structure BuildInfo where
  name : String
  buildID : String
  started : Int
  finished : Option Int
  id : Int
deriving DecidableEq

/-- A string stored as a ConfigMap value: either json.Marshal output of
a BuildInfo, or bytes that do not unmarshal as one. -/
inductive StoredValue
  | enc (bi : BuildInfo)
  | corrupt (raw : String)
deriving DecidableEq

/-- json.Unmarshal into a BuildInfo: recovers the record from Marshal
output and fails on anything else. -/
def decodeBuildInfo : StoredValue → Option BuildInfo
  | .enc bi => some bi
  | .corrupt _ => none

/-- The Data field of the ConfigMap, as an association list from project
name to stored value. -/
abbrev CMData := List (String × StoredValue)

/-- The state of the backing document: none when the ConfigMap does not
exist, some data otherwise (a nil Data map is the empty list). -/
abbrev CMState := Option CMData

/-- Go map read m[k]: the value at the first matching key, if any. -/
def lookupKey (k : String) : CMData → Option StoredValue
  | [] => none
  | (k', v') :: t => if k' = k then some v' else lookupKey k t

/-- Go map write m[k] = v: replace the value at an existing key, else
add the key. -/
def insertEntry (k : String) (v : StoredValue) : CMData → CMData
  | [] => [(k, v)]
  | (k', v') :: t =>
      if k' = k then (k, v) :: t else (k', v') :: insertEntry k v t

/-- StartBuild (configmap.go): get the ConfigMap, creating it empty when
absent; marshal a fresh BuildInfo with started = now and a
timestamp-derived id (int(time.Now().Unix()), here the same integer
second now); write it under key name, discarding any previous record. -/
def StartBuild (st : CMState) (name buildID : String) (now : Int) :
    CMState × Int :=
  let data : CMData :=
    match st with
    | none => []
    | some d => d
  let bi : BuildInfo :=
    { name := name, buildID := buildID, started := now,
      finished := none, id := now }
  (some (insertEntry name (.enc bi) data), bi.id)

/-- FinishBuild (configmap.go): get the ConfigMap (failing when it does
not exist); fail NotFound when no entry for name is stored; fail
DecodeFailed when the entry does not unmarshal; fail Mismatch when the
stored build_id differs from the supplied one; otherwise set finished =
now, re-marshal and write back. -/
def FinishBuild (st : CMState) (name buildID : String) (now : Int) :
    CMState × Option StorageErr :=
  match st with
  | none => (none, some .getFailed)
  | some data =>
    match lookupKey name data with
    | none => (some data, some .notFound)
    | some sv =>
      match decodeBuildInfo sv with
      | none => (some data, some .decodeFailed)
      | some bi =>
        if bi.buildID ≠ buildID then (some data, some .mismatch)
        else
          (some (insertEntry name
                   (.enc { bi with finished := some now }) data),
           none)

/-- HealthCheck (configmap.go): get the ConfigMap; when that fails
because it does not exist, create it with empty Data; report success. -/
def HealthCheck (st : CMState) : CMState × Option StorageErr :=
  match st with
  | none => (some [], none)
  | some d => (some d, none)

/-- GetBuildInfo (configmap.go): get the ConfigMap, look up name,
unmarshal the stored record. -/
def GetBuildInfo (st : CMState) (name : String) :
    Except StorageErr BuildInfo :=
  match st with
  | none => .error .getFailed
  | some data =>
    match lookupKey name data with
    | none => .error .notFound
    | some sv =>
      match decodeBuildInfo sv with
      | none => .error .decodeFailed
      | some bi => .ok bi

/-- ListBuilds (configmap.go): get the ConfigMap and unmarshal every
entry, logging and skipping entries that fail to unmarshal. -/
def ListBuilds (st : CMState) :
    Except StorageErr (List (String × BuildInfo)) :=
  match st with
  | none => .error .getFailed
  | some data =>
    .ok (data.filterMap
      (fun p => (decodeBuildInfo p.2).map (fun bi => (p.1, bi))))

/-- Conversion of a stored BuildInfo into a Build on the read paths of
ListProjects and GetProjectBuilds (configmap.go): finished copied when
present, duration derived as finished - started at read time. -/
def buildOfBuildInfo (bi : BuildInfo) : Build :=
  { id := bi.id, name := bi.name, buildID := bi.buildID,
    started := bi.started, finished := bi.finished,
    duration :=
      match bi.finished with
      | some f => some (f - bi.started)
      | none => none }

/-- ListProjects (configmap.go): one summary per entry ListBuilds
returns, each with BuildCount 1 since only the latest build is kept. -/
def ListProjects (st : CMState) :
    Except StorageErr (List ProjectSummary) :=
  (ListBuilds st).map
    (fun builds =>
      builds.map
        (fun q =>
          { name := q.1, latestBuild := buildOfBuildInfo q.2,
            buildCount := 1 }))

/-- GetProjectBuilds (configmap.go): the single retained build for
name, via GetBuildInfo. -/
def GetProjectBuilds (st : CMState) (name : String) :
    Except StorageErr (List Build) :=
  (GetBuildInfo st name).map (fun bi => [buildOfBuildInfo bi])

/-- Well-formedness a Go map guarantees of Data: keys are distinct. -/
def Wf : CMState → Prop
  | none => True
  | some d => (d.map Prod.fst).Nodup

instance : ∀ st : CMState, Decidable (Wf st)
  | none => inferInstanceAs (Decidable True)
  | some d => inferInstanceAs (Decidable ((d.map Prod.fst).Nodup))

end ConfigMapStorage

/-- C1: FinishBuild error asymmetry between backends: when no row
matches (name, buildID), the relational FinishBuild updates zero rows
and returns success with the state unchanged; when the backing document
exists but holds no entry for name, the namespace FinishBuild fails with
the NotFound kind; and when the stored entry for name decodes to a
record whose buildID differs from the supplied one, it fails with the
Mismatch kind. -/
theorem finishBuild_error_asymmetry :
    (∀ (s : DatabaseStorage.DBState) (name buildID : String) (now : Int),
        (∀ r ∈ s.rows, ¬(r.name = name ∧ r.buildID = buildID)) →
        DatabaseStorage.FinishBuild s name buildID now = (s, none)) ∧
    (∀ (data : ConfigMapStorage.CMData) (name buildID : String)
        (now : Int),
        ConfigMapStorage.lookupKey name data = none →
        ConfigMapStorage.FinishBuild (some data) name buildID now
          = (some data, some .notFound)) ∧
    (∀ (data : ConfigMapStorage.CMData) (name buildID : String)
        (now : Int) (bi : ConfigMapStorage.BuildInfo),
        ConfigMapStorage.lookupKey name data = some (.enc bi) →
        bi.buildID ≠ buildID →
        ConfigMapStorage.FinishBuild (some data) name buildID now
          = (some data, some .mismatch)) := by
  refine ⟨?_, ?_, ?_⟩
  · intro s name buildID now h
    have hrows :
        s.rows.map (DatabaseStorage.finishRow name buildID now)
          = s.rows := by
      conv_rhs => rw [← List.map_id s.rows]
      exact List.map_congr_left
        (fun r hr => by simp [DatabaseStorage.finishRow, h r hr])
    simp [DatabaseStorage.FinishBuild, hrows]
  · intro data name buildID now h
    simp [ConfigMapStorage.FinishBuild, h]
  · intro data name buildID now bi h hne
    simp [ConfigMapStorage.FinishBuild, h, ConfigMapStorage.decodeBuildInfo,
      hne]

/-- Witness for C1 at concrete inputs: a one-row table with a different
buildID, an empty document mapping, and a stored record with a
different buildID. -/
theorem finishBuild_error_asymmetry_witness :
    DatabaseStorage.FinishBuild ⟨[⟨1, "a", "x", 0, none⟩], 2⟩ "a" "b" 5
      = (⟨[⟨1, "a", "x", 0, none⟩], 2⟩, none) ∧
    ConfigMapStorage.FinishBuild (some []) "a" "b" 5
      = (some [], some .notFound) ∧
    ConfigMapStorage.FinishBuild
        (some [("a", .enc ⟨"a", "x", 0, none, 1⟩)]) "a" "b" 5
      = (some [("a", .enc ⟨"a", "x", 0, none, 1⟩)], some .mismatch) :=
  ⟨finishBuild_error_asymmetry.1 _ "a" "b" 5 (by decide),
   finishBuild_error_asymmetry.2.1 [] "a" "b" 5 (by decide),
   finishBuild_error_asymmetry.2.2 _ "a" "b" 5 ⟨"a", "x", 0, none, 1⟩
     (by decide) (by decide)⟩

/-- C4: a Mismatch leaves the document unchanged: when the stored entry
for name decodes to a record whose buildID differs from the supplied
one, the namespace FinishBuild returns the Mismatch kind and the whole
document state, every stored field included, is identical before and
after the call. -/
theorem mismatch_preserves_state :
    ∀ (data : ConfigMapStorage.CMData) (name wrongID : String)
      (now : Int) (bi : ConfigMapStorage.BuildInfo),
      ConfigMapStorage.lookupKey name data = some (.enc bi) →
      bi.buildID ≠ wrongID →
      (ConfigMapStorage.FinishBuild (some data) name wrongID now).1
          = some data ∧
      (ConfigMapStorage.FinishBuild (some data) name wrongID now).2
          = some .mismatch := by
  intro data name wrongID now bi h hne
  constructor <;>
    simp [ConfigMapStorage.FinishBuild, h,
      ConfigMapStorage.decodeBuildInfo, hne]

/-- Witness for C4: a document storing a record for key a with buildID
x, finished at 7, is returned untouched by FinishBuild with buildID b. -/
theorem mismatch_preserves_state_witness :
    (ConfigMapStorage.FinishBuild
        (some [("a", .enc ⟨"a", "x", 0, some 7, 1⟩)]) "a" "b" 9).1
      = some [("a", .enc ⟨"a", "x", 0, some 7, 1⟩)] ∧
    (ConfigMapStorage.FinishBuild
        (some [("a", .enc ⟨"a", "x", 0, some 7, 1⟩)]) "a" "b" 9).2
      = some .mismatch :=
  mismatch_preserves_state _ "a" "b" 9 ⟨"a", "x", 0, some 7, 1⟩
    (by decide) (by decide)

/-- C2 counterexample: with one row recording (a, b) started at 0 and
already finished at 5, a second FinishBuild for the same pair at time
10 changes the stored finished timestamp from 5 to 10, refuting that a
set finished timestamp is never changed by a subsequent operation. -/
theorem finished_immutability_cex :
    ((⟨[⟨1, "a", "b", 0, some 5⟩], 2⟩ :
        DatabaseStorage.DBState).rows.map DatabaseStorage.Row.finished
      = [some 5]) ∧
    ((DatabaseStorage.FinishBuild ⟨[⟨1, "a", "b", 0, some 5⟩], 2⟩
        "a" "b" 10).1.rows.map DatabaseStorage.Row.finished
      = [some 10]) ∧
    some (10 : Int) ≠ some (5 : Int) := by
  decide

/-- C2 amended: a set finished timestamp is never unset back to absent,
but it is not immutable: a repeated FinishBuild with the same matching
(name, buildID) overwrites it with the new current time. On the
relational backend the per-row update keeps a set finished set and sets
it to now on a match; on the namespace backend FinishBuild on a
matching stored record writes the record back with finished = now. -/
theorem finished_never_unset :
    (∀ (name buildID : String) (now : Int) (r : DatabaseStorage.Row),
        r.finished.isSome →
        ((DatabaseStorage.finishRow name buildID now r).finished).isSome) ∧
    (∀ (name buildID : String) (now : Int) (r : DatabaseStorage.Row),
        r.name = name → r.buildID = buildID →
        (DatabaseStorage.finishRow name buildID now r).finished
          = some now) ∧
    (∀ (data : ConfigMapStorage.CMData) (name buildID : String)
        (now : Int) (bi : ConfigMapStorage.BuildInfo),
        ConfigMapStorage.lookupKey name data = some (.enc bi) →
        bi.buildID = buildID →
        ConfigMapStorage.FinishBuild (some data) name buildID now
          = (some (ConfigMapStorage.insertEntry name
                (.enc { bi with finished := some now }) data), none)) := by
  refine ⟨?_, ?_, ?_⟩
  · intro name buildID now r h
    unfold DatabaseStorage.finishRow
    split
    · simp
    · exact h
  · intro name buildID now r h1 h2
    simp [DatabaseStorage.finishRow, h1, h2]
  · intro data name buildID now bi h hb
    simp [ConfigMapStorage.FinishBuild, h,
      ConfigMapStorage.decodeBuildInfo, hb]

/-- Witness for the amended C2: a finished row stays finished and is
restamped to 10; the namespace backend rewrites a finished record with
the new time 10. -/
theorem finished_never_unset_witness :
    ((DatabaseStorage.finishRow "a" "b" 10
        ⟨1, "a", "b", 0, some 5⟩).finished).isSome ∧
    (DatabaseStorage.finishRow "a" "b" 10
        ⟨1, "a", "b", 0, some 5⟩).finished = some 10 ∧
    ConfigMapStorage.FinishBuild
        (some [("a", .enc ⟨"a", "b", 0, some 5, 1⟩)]) "a" "b" 10
      = (some [("a", .enc ⟨"a", "b", 0, some 10, 1⟩)], none) :=
  ⟨finished_never_unset.1 "a" "b" 10 _ (by decide),
   finished_never_unset.2.1 "a" "b" 10 _ (by decide) (by decide),
   finished_never_unset.2.2 _ "a" "b" 10 ⟨"a", "b", 0, some 5, 1⟩
     (by decide) (by decide)⟩

/-- C3 counterexample: with two rows both recording (a, b), started at
0 and at 10, the relational FinishBuild at time 20 sets finished on
both rows, so the older, non-most-recent row does not stay unchanged as
the claim states. -/
theorem finishBuild_most_recent_cex :
    (DatabaseStorage.FinishBuild
        ⟨[⟨1, "a", "b", 0, none⟩, ⟨2, "a", "b", 10, none⟩], 3⟩
        "a" "b" 20).1.rows
      = [⟨1, "a", "b", 0, some 20⟩, ⟨2, "a", "b", 10, some 20⟩] ∧
    (⟨1, "a", "b", 0, some 20⟩ : DatabaseStorage.Row)
      ≠ ⟨1, "a", "b", 0, none⟩ := by
  decide

/-- C3 amended: the relational FinishBuild sets finished = now on every
row matching (name, buildID), historical duplicates included, leaves
every non-matching row unchanged, and adds or removes no rows (the two
row lists correspond pointwise) while the id sequence is untouched. -/
theorem db_finishBuild_updates_all_matching :
    ∀ (s : DatabaseStorage.DBState) (name buildID : String) (now : Int),
      List.Forall₂
        (fun r r' =>
          (r.name = name ∧ r.buildID = buildID →
            r' = { r with finished := some now }) ∧
          (¬(r.name = name ∧ r.buildID = buildID) → r' = r))
        s.rows
        ((DatabaseStorage.FinishBuild s name buildID now).1.rows) ∧
      (DatabaseStorage.FinishBuild s name buildID now).1.nextId
        = s.nextId := by
  intro s name buildID now
  constructor
  · show List.Forall₂ _ s.rows
      (s.rows.map (DatabaseStorage.finishRow name buildID now))
    induction s.rows with
    | nil => exact .nil
    | cons r t ih =>
        refine .cons ⟨?_, ?_⟩ ih
        · intro h
          simp [DatabaseStorage.finishRow, h]
        · intro h
          simp [DatabaseStorage.finishRow, h]
  · rfl

/-- Witness for the amended C3 on a two-row table in which only the
first row matches (a, b). -/
theorem db_finishBuild_updates_all_matching_witness :
    List.Forall₂
      (fun r r' =>
        (r.name = "a" ∧ r.buildID = "b" →
          r' = { r with finished := some 20 }) ∧
        (¬(r.name = "a" ∧ r.buildID = "b") → r' = r))
      ([⟨1, "a", "b", 0, none⟩, ⟨2, "c", "d", 10, none⟩] :
        List DatabaseStorage.Row)
      ((DatabaseStorage.FinishBuild
          ⟨[⟨1, "a", "b", 0, none⟩, ⟨2, "c", "d", 10, none⟩], 3⟩
          "a" "b" 20).1.rows) ∧
    (DatabaseStorage.FinishBuild
        ⟨[⟨1, "a", "b", 0, none⟩, ⟨2, "c", "d", 10, none⟩], 3⟩
        "a" "b" 20).1.nextId = 3 :=
  db_finishBuild_updates_all_matching
    ⟨[⟨1, "a", "b", 0, none⟩, ⟨2, "c", "d", 10, none⟩], 3⟩ "a" "b" 20

/-- The duration field of a scanned relational row is derived from its
finished and started fields. -/
theorem buildOfRow_duration (r : DatabaseStorage.Row) :
    ((DatabaseStorage.buildOfRow r).duration.isSome
      ↔ (DatabaseStorage.buildOfRow r).finished.isSome) ∧
    ∀ f, (DatabaseStorage.buildOfRow r).finished = some f →
      (DatabaseStorage.buildOfRow r).duration
        = some (f - (DatabaseStorage.buildOfRow r).started) := by
  cases h : r.finished <;>
    simp_all [DatabaseStorage.buildOfRow]

/-- The duration field of a decoded namespace record is derived from
its finished and started fields. -/
theorem buildOfBuildInfo_duration (bi : ConfigMapStorage.BuildInfo) :
    ((ConfigMapStorage.buildOfBuildInfo bi).duration.isSome
      ↔ (ConfigMapStorage.buildOfBuildInfo bi).finished.isSome) ∧
    ∀ f, (ConfigMapStorage.buildOfBuildInfo bi).finished = some f →
      (ConfigMapStorage.buildOfBuildInfo bi).duration
        = some (f - (ConfigMapStorage.buildOfBuildInfo bi).started) := by
  cases h : bi.finished <;>
    simp_all [ConfigMapStorage.buildOfBuildInfo]

/-- C5: every Build returned by a read operation of either backend
carries duration exactly when it carries finished, and then the
duration equals finished - started, recomputed at read time (neither
backend's state stores a duration at all). -/
theorem duration_derived_from_finished :
    (∀ (s : DatabaseStorage.DBState) (name : String),
        ∀ b ∈ DatabaseStorage.GetProjectBuilds s name,
          (b.duration.isSome ↔ b.finished.isSome) ∧
          ∀ f, b.finished = some f →
            b.duration = some (f - b.started)) ∧
    (∀ (s : DatabaseStorage.DBState),
        ∀ p ∈ DatabaseStorage.ListProjects s,
          (p.latestBuild.duration.isSome
            ↔ p.latestBuild.finished.isSome) ∧
          ∀ f, p.latestBuild.finished = some f →
            p.latestBuild.duration
              = some (f - p.latestBuild.started)) ∧
    (∀ (st : ConfigMapStorage.CMState) (name : String)
        (l : List Build),
        ConfigMapStorage.GetProjectBuilds st name = .ok l →
        ∀ b ∈ l,
          (b.duration.isSome ↔ b.finished.isSome) ∧
          ∀ f, b.finished = some f →
            b.duration = some (f - b.started)) ∧
    (∀ (st : ConfigMapStorage.CMState) (l : List ProjectSummary),
        ConfigMapStorage.ListProjects st = .ok l →
        ∀ p ∈ l,
          (p.latestBuild.duration.isSome
            ↔ p.latestBuild.finished.isSome) ∧
          ∀ f, p.latestBuild.finished = some f →
            p.latestBuild.duration
              = some (f - p.latestBuild.started)) := by
  refine ⟨?_, ?_, ?_, ?_⟩
  · intro s name b hb
    obtain ⟨r, -, rfl⟩ := List.mem_map.mp hb
    exact buildOfRow_duration r
  · intro s p hp
    obtain ⟨n, -, hmk⟩ := List.mem_filterMap.mp hp
    obtain ⟨r, -, rfl⟩ := Option.map_eq_some'.mp hmk
    exact buildOfRow_duration r
  · intro st name l hl b hb
    cases hg : ConfigMapStorage.GetBuildInfo st name with
    | error e =>
        simp [ConfigMapStorage.GetProjectBuilds, hg, Except.map] at hl
    | ok bi =>
        simp [ConfigMapStorage.GetProjectBuilds, hg, Except.map] at hl
        subst hl
        obtain rfl : b = ConfigMapStorage.buildOfBuildInfo bi := by
          simpa using hb
        exact buildOfBuildInfo_duration bi
  · intro st l hl p hp
    cases hg : ConfigMapStorage.ListBuilds st with
    | error e =>
        simp [ConfigMapStorage.ListProjects, hg, Except.map] at hl
    | ok builds =>
        simp [ConfigMapStorage.ListProjects, hg, Except.map] at hl
        subst hl
        obtain ⟨q, -, rfl⟩ := List.mem_map.mp hp
        exact buildOfBuildInfo_duration q.2

/-- Witness for C5 on a build started at 0 and finished at 7, read
back through all four read operations. -/
theorem duration_derived_from_finished_witness :
    ((⟨1, "a", "b", 0, some 7, some 7⟩ : Build).duration
      = some (7 - 0)) ∧
    ((⟨1, "a", "b", 0, some 7, some 7⟩ : Build).duration
      = some ((7 : Int) - 0)) ∧
    ((⟨1, "a", "b", 0, some 7, some 7⟩ : Build).duration
      = some ((7 : Int) - (0 : Int))) ∧
    ((⟨1, "a", "b", 0, some 7, some 7⟩ : Build).duration.isSome) :=
  ⟨(duration_derived_from_finished.1 ⟨[⟨1, "a", "b", 0, some 7⟩], 2⟩
      "a" ⟨1, "a", "b", 0, some 7, some 7⟩ (by decide)).2 7 (by decide),
   (duration_derived_from_finished.2.2.1
      (some [("a", .enc ⟨"a", "b", 0, some 7, 1⟩)]) "a"
      [⟨1, "a", "b", 0, some 7, some 7⟩] rfl
      ⟨1, "a", "b", 0, some 7, some 7⟩ (by decide)).2 7 (by decide),
   (duration_derived_from_finished.2.2.2
      (some [("a", .enc ⟨"a", "b", 0, some 7, 1⟩)])
      [⟨"a", ⟨1, "a", "b", 0, some 7, some 7⟩, 1⟩] rfl
      ⟨"a", ⟨1, "a", "b", 0, some 7, some 7⟩, 1⟩ (by decide)).2 7
     (by decide),
   (duration_derived_from_finished.2.1 ⟨[⟨1, "a", "b", 0, some 7⟩], 2⟩
      ⟨"a", ⟨1, "a", "b", 0, some 7, some 7⟩, 1⟩ (by decide)).1.mpr
     (by decide)⟩

/-- The table state of the C6 scenario: three builds started for
project alpha at times 100, 200, 300, one for beta at 400, and the
first two alpha builds finished at 150 and 250 (the third still
running). -/
def scenarioC6 : DatabaseStorage.DBState :=
  let s1 := (DatabaseStorage.StartBuild ⟨[], 1⟩ "alpha" "a1" 100).1
  let s2 := (DatabaseStorage.StartBuild s1 "alpha" "a2" 200).1
  let s3 := (DatabaseStorage.StartBuild s2 "alpha" "a3" 300).1
  let s4 := (DatabaseStorage.StartBuild s3 "beta" "b1" 400).1
  let s5 := (DatabaseStorage.FinishBuild s4 "alpha" "a1" 150).1
  (DatabaseStorage.FinishBuild s5 "alpha" "a2" 250).1

/-- C6: the relational ListProjects after starting 3 builds for alpha
(two finished, one running) and 1 for beta returns exactly 2 summaries,
one per distinct name; the alpha summary counts all 3 alpha rows and
its latest build is the alpha build with the greatest started
timestamp (the a3 build, started at 300, which bounds every alpha
row's start). -/
theorem db_listProjects_aggregation_scenario :
    (DatabaseStorage.ListProjects scenarioC6).length = 2 ∧
    (DatabaseStorage.ListProjects scenarioC6).map
        (fun p =>
          (p.name, p.buildCount, p.latestBuild.buildID,
            p.latestBuild.started))
      = [("alpha", 3, "a3", 300), ("beta", 1, "b1", 400)] ∧
    (∀ r ∈ scenarioC6.rows, r.name = "alpha" → r.started ≤ 300) := by
  decide

/-- The key just written by a Go map write is read back with the
written value. -/
theorem lookupKey_insertEntry (k : String)
    (v : ConfigMapStorage.StoredValue) (d : ConfigMapStorage.CMData) :
    ConfigMapStorage.lookupKey k (ConfigMapStorage.insertEntry k v d)
      = some v := by
  induction d with
  | nil => simp [ConfigMapStorage.insertEntry, ConfigMapStorage.lookupKey]
  | cons q t ih =>
      obtain ⟨k', v'⟩ := q
      by_cases h : k' = k <;>
        simp [ConfigMapStorage.insertEntry, ConfigMapStorage.lookupKey,
          h, ih]

/-- C8: on either backend, StartBuild followed immediately by
GetProjectBuilds for the same name yields a result containing a record
with the supplied buildID and an absent finished field. -/
theorem start_then_read_roundtrip :
    (∀ (s : DatabaseStorage.DBState) (name buildID : String)
        (now : Int),
        ∃ b ∈ DatabaseStorage.GetProjectBuilds
            (DatabaseStorage.StartBuild s name buildID now).1 name,
          b.buildID = buildID ∧ b.finished = none) ∧
    (∀ (st : ConfigMapStorage.CMState) (name buildID : String)
        (now : Int),
        ∃ l, ConfigMapStorage.GetProjectBuilds
            (ConfigMapStorage.StartBuild st name buildID now).1 name
          = .ok l ∧
          ∃ b ∈ l, b.buildID = buildID ∧ b.finished = none) := by
  constructor
  · intro s name buildID now
    refine ⟨DatabaseStorage.buildOfRow
        ⟨s.nextId, name, buildID, now, none⟩, ?_, rfl, rfl⟩
    apply List.mem_map_of_mem
    rw [List.mem_insertionSort]
    refine List.mem_filter.mpr ⟨?_, by simp⟩
    exact List.mem_append_right _ (List.mem_singleton.mpr rfl)
  · intro st name buildID now
    refine ⟨[ConfigMapStorage.buildOfBuildInfo
        ⟨name, buildID, now, none, now⟩], ?_, ?_⟩
    · have hk := lookupKey_insertEntry name
        (.enc ⟨name, buildID, now, none, now⟩)
        (match st with | none => [] | some d => d)
      simp [ConfigMapStorage.GetProjectBuilds,
        ConfigMapStorage.GetBuildInfo, ConfigMapStorage.StartBuild, hk,
        ConfigMapStorage.decodeBuildInfo, Except.map]
    · exact ⟨_, List.mem_singleton.mpr rfl, rfl, rfl⟩

/-- C9: the namespace HealthCheck, invoked when the backing document
does not exist, returns success and creates the document as an empty
mapping, which a subsequent ListBuilds observes as an empty result. -/
theorem cm_healthCheck_creates_empty_doc :
    ConfigMapStorage.HealthCheck none = (some [], none) ∧
    ConfigMapStorage.ListBuilds (ConfigMapStorage.HealthCheck none).1
      = .ok [] :=
  ⟨rfl, rfl⟩

/-- C10: the namespace ListProjects never fails because of a corrupt
stored entry: on every existing document it succeeds, and the names it
returns are exactly the keys whose stored values decode as a serialized
build record — undecodable entries are silently skipped, decodable ones
all appear. -/
theorem cm_listProjects_skips_undecodable :
    ∀ data : ConfigMapStorage.CMData,
      ∃ l, ConfigMapStorage.ListProjects (some data) = .ok l ∧
        l.map (fun p => p.name)
          = (data.filter
              (fun q =>
                (ConfigMapStorage.decodeBuildInfo q.2).isSome)).map
              Prod.fst := by
  intro data
  refine ⟨_, rfl, ?_⟩
  induction data with
  | nil => rfl
  | cons q t ih =>
      obtain ⟨k, v⟩ := q
      cases v with
      | enc bi =>
          simpa [ConfigMapStorage.decodeBuildInfo] using ih
      | corrupt raw =>
          simpa [ConfigMapStorage.decodeBuildInfo] using ih

/-- A key present in a Go map after a write was either the written key
or already present. -/
theorem mem_keys_insertEntry (a k : String)
    (v : ConfigMapStorage.StoredValue) :
    ∀ d : ConfigMapStorage.CMData,
      a ∈ (ConfigMapStorage.insertEntry k v d).map Prod.fst →
      a = k ∨ a ∈ d.map Prod.fst := by
  intro d
  induction d with
  | nil => simp [ConfigMapStorage.insertEntry]
  | cons q t ih =>
      obtain ⟨k', v'⟩ := q
      by_cases h : k' = k
      · simp only [ConfigMapStorage.insertEntry, if_pos h, List.map_cons,
          List.mem_cons]
        rintro (rfl | hm)
        · exact .inl rfl
        · exact .inr (.inr hm)
      · simp only [ConfigMapStorage.insertEntry, if_neg h, List.map_cons,
          List.mem_cons]
        rintro (rfl | hm)
        · exact .inr (.inl rfl)
        · rcases ih hm with h' | h'
          · exact .inl h'
          · exact .inr (.inr h')

/-- A Go map write preserves distinctness of the keys. -/
theorem nodup_keys_insertEntry (k : String)
    (v : ConfigMapStorage.StoredValue) :
    ∀ d : ConfigMapStorage.CMData,
      (d.map Prod.fst).Nodup →
      ((ConfigMapStorage.insertEntry k v d).map Prod.fst).Nodup := by
  intro d
  induction d with
  | nil =>
      intro _
      simp [ConfigMapStorage.insertEntry]
  | cons q t ih =>
      obtain ⟨k', v'⟩ := q
      intro hnd
      rw [List.map_cons, List.nodup_cons] at hnd
      by_cases h : k' = k
      · subst h
        simpa [ConfigMapStorage.insertEntry, List.nodup_cons] using hnd
      · rw [ConfigMapStorage.insertEntry, if_neg h, List.map_cons,
          List.nodup_cons]
        refine ⟨?_, ih hnd.2⟩
        intro hm
        rcases mem_keys_insertEntry k' k v t hm with h' | h'
        · exact h h'
        · exact hnd.1 h'

/-- With distinct keys, the decodable entries of the document whose key
is a given name reduce to the single stored record under that name. -/
theorem decoded_entries_of_unique_key (n : String)
    (bi : ConfigMapStorage.BuildInfo) :
    ∀ d : ConfigMapStorage.CMData,
      (d.map Prod.fst).Nodup →
      ConfigMapStorage.lookupKey n d = some (.enc bi) →
      ((d.filterMap
          (fun p =>
            (ConfigMapStorage.decodeBuildInfo p.2).map
              (fun b => (p.1, b)))).filter
          (fun q => q.1 = n)) = [(n, bi)] := by
  intro d
  induction d with
  | nil =>
      intro _ h
      simp [ConfigMapStorage.lookupKey] at h
  | cons q t ih =>
      obtain ⟨k, v⟩ := q
      intro hnd hl
      rw [List.map_cons, List.nodup_cons] at hnd
      by_cases h : k = n
      · subst h
        rw [ConfigMapStorage.lookupKey, if_pos rfl] at hl
        obtain rfl : v = .enc bi := by simpa using hl
        have hrest :
            ((t.filterMap
                (fun p =>
                  (ConfigMapStorage.decodeBuildInfo p.2).map
                    (fun b => (p.1, b)))).filter
                (fun q => q.1 = k)) = [] := by
          rw [List.filter_eq_nil_iff]
          intro q hq
          obtain ⟨p, hp, hdec⟩ := List.mem_filterMap.mp hq
          obtain ⟨b, -, rfl⟩ := Option.map_eq_some'.mp hdec
          have : p.1 ∈ t.map Prod.fst := List.mem_map_of_mem _ hp
          simpa using fun hqk : p.1 = k => hnd.1 (hqk ▸ this)
        have hcons :
            (((k, ConfigMapStorage.StoredValue.enc bi) :: t).filterMap
                (fun p =>
                  (ConfigMapStorage.decodeBuildInfo p.2).map
                    (fun b => (p.1, b))))
              = (k, bi) :: (t.filterMap
                  (fun p =>
                    (ConfigMapStorage.decodeBuildInfo p.2).map
                      (fun b => (p.1, b)))) := rfl
        rw [hcons, List.filter_cons_of_pos (by simp), hrest]
      · rw [ConfigMapStorage.lookupKey] at hl
        rw [if_neg h] at hl
        have hrec := ih hnd.2 hl
        cases v with
        | enc b' =>
            simpa [ConfigMapStorage.decodeBuildInfo, h] using hrec
        | corrupt raw =>
            simpa [ConfigMapStorage.decodeBuildInfo, h] using hrec

/-- Core of C7 over an explicit data mapping: after two successive
writes of fresh records under the same name, the listing has exactly
one summary for that name, every summary counts 1, and the summary for
that name carries the second buildID. -/
theorem cm_double_start_aux (data0 : ConfigMapStorage.CMData)
    (n b1 b2 : String) (t1 t2 : Int)
    (h0 : (data0.map Prod.fst).Nodup) :
    ∃ l, ConfigMapStorage.ListProjects
        (some (ConfigMapStorage.insertEntry n
          (.enc ⟨n, b2, t2, none, t2⟩)
          (ConfigMapStorage.insertEntry n (.enc ⟨n, b1, t1, none, t1⟩)
            data0)))
      = .ok l ∧
      (l.filter (fun p => p.name = n)).length = 1 ∧
      (∀ p ∈ l, p.buildCount = 1) ∧
      (∀ p ∈ l, p.name = n → p.latestBuild.buildID = b2) := by
  have h1 := nodup_keys_insertEntry n
    (.enc ⟨n, b1, t1, none, t1⟩) data0 h0
  have h2 := nodup_keys_insertEntry n
    (.enc ⟨n, b2, t2, none, t2⟩) _ h1
  have hk := lookupKey_insertEntry n
    (.enc (⟨n, b2, t2, none, t2⟩ : ConfigMapStorage.BuildInfo))
    (ConfigMapStorage.insertEntry n (.enc ⟨n, b1, t1, none, t1⟩) data0)
  have hfil := decoded_entries_of_unique_key n ⟨n, b2, t2, none, t2⟩
    (ConfigMapStorage.insertEntry n (.enc ⟨n, b2, t2, none, t2⟩)
      (ConfigMapStorage.insertEntry n (.enc ⟨n, b1, t1, none, t1⟩)
        data0)) h2 hk
  have hmap :
      (((ConfigMapStorage.insertEntry n (.enc ⟨n, b2, t2, none, t2⟩)
          (ConfigMapStorage.insertEntry n (.enc ⟨n, b1, t1, none, t1⟩)
            data0)).filterMap
          (fun p =>
            (ConfigMapStorage.decodeBuildInfo p.2).map
              (fun b => (p.1, b)))).map
          (fun q =>
            ({ name := q.1,
               latestBuild := ConfigMapStorage.buildOfBuildInfo q.2,
               buildCount := 1 } : ProjectSummary))).filter
          (fun p => p.name = n)
        = [{ name := n,
             latestBuild :=
               ConfigMapStorage.buildOfBuildInfo ⟨n, b2, t2, none, t2⟩,
             buildCount := 1 }] := by
    rw [List.filter_map]
    have hpred :
        ((fun p : ProjectSummary => decide (p.name = n)) ∘
          (fun q : String × ConfigMapStorage.BuildInfo =>
            ({ name := q.1,
               latestBuild := ConfigMapStorage.buildOfBuildInfo q.2,
               buildCount := 1 } : ProjectSummary)))
          = (fun q : String × ConfigMapStorage.BuildInfo =>
              decide (q.1 = n)) := rfl
    rw [hpred, hfil]
    rfl
  refine ⟨_, rfl, ?_, ?_, ?_⟩
  · rw [hmap]
    rfl
  · intro p hp
    obtain ⟨q, -, rfl⟩ := List.mem_map.mp hp
    rfl
  · intro p hp hpn
    have hpf : p ∈ List.filter
        (fun p : ProjectSummary => decide (p.name = n))
        (List.map (fun q : String × ConfigMapStorage.BuildInfo =>
            ({ name := q.1,
               latestBuild := ConfigMapStorage.buildOfBuildInfo q.2,
               buildCount := 1 } : ProjectSummary))
          (List.filterMap
            (fun p =>
              (ConfigMapStorage.decodeBuildInfo p.2).map
                (fun b => (p.1, b)))
            (ConfigMapStorage.insertEntry n (.enc ⟨n, b2, t2, none, t2⟩)
              (ConfigMapStorage.insertEntry n
                (.enc ⟨n, b1, t1, none, t1⟩) data0)))) :=
      List.mem_filter.mpr ⟨hp, by simp [hpn]⟩
    rw [hmap] at hpf
    rw [List.mem_singleton.mp hpf]
    rfl

/-- C7: the namespace backend retains only the latest build per
project: from any well-formed document state, after two StartBuild
calls for the same name, ListProjects returns exactly one summary for
that name, every summary's buildCount is 1, and the summary for that
name carries the second call's buildID — the prior record was silently
overwritten. -/
theorem cm_latest_only_per_project :
    ∀ (st : ConfigMapStorage.CMState) (n b1 b2 : String) (t1 t2 : Int),
      ConfigMapStorage.Wf st →
      ∃ l, ConfigMapStorage.ListProjects
          (ConfigMapStorage.StartBuild
            ((ConfigMapStorage.StartBuild st n b1 t1).1) n b2 t2).1
        = .ok l ∧
        (l.filter (fun p => p.name = n)).length = 1 ∧
        (∀ p ∈ l, p.buildCount = 1) ∧
        (∀ p ∈ l, p.name = n → p.latestBuild.buildID = b2) := by
  intro st n b1 b2 t1 t2 hwf
  cases st with
  | none => exact cm_double_start_aux [] n b1 b2 t1 t2 (by simp)
  | some d => exact cm_double_start_aux d n b1 b2 t1 t2 hwf

/-- Witness for C7: two starts for project alpha on a document that
does not exist yet. -/
theorem cm_latest_only_per_project_witness :
    ∃ l, ConfigMapStorage.ListProjects
        (ConfigMapStorage.StartBuild
          ((ConfigMapStorage.StartBuild none "alpha" "b1" 1).1)
          "alpha" "b2" 2).1
      = .ok l ∧
      (l.filter (fun p => p.name = "alpha")).length = 1 ∧
      (∀ p ∈ l, p.buildCount = 1) ∧
      (∀ p ∈ l, p.name = "alpha" → p.latestBuild.buildID = "b2") :=
  cm_latest_only_per_project none "alpha" "b1" "b2" 1 2 trivial

end BuildCounter
